import Mathlib

/-!
Verification development for the neom mesh viewer.

The definitions below are a shallow embedding of the Rust source in
src/lib.rs (the wireframe Instance Builder, the ModelEntry lifecycle and
the asset loader) together with the pieces of the external rendering
library (three_d / cgmath) that the source calls into.  Machine floats
(f32) are modelled as real numbers; ambient randomness (the thread rng
used for solid materials) is modelled as an explicitly supplied stream of
colour draws; filesystem and GPU effects are modelled by explicit data
(a path model carrying per-file outcomes, and draw lists for render
calls).  A Rust panic (an `unwrap` of an error) is modelled as `none` in
an outer `Option`.
-/

/-! ### Index-level edge emission model (pure natural-number computation)

`edge_transformations` in src/lib.rs walks the triangle list and, per
triangle `(i1, i2, i3)`, visits the ordered index pairs `(i1,i2)`,
`(i2,i3)`, `(i3,i1)`, pushing a transform only when the first index is
numerically smaller than the second.  The following computable
definitions describe that index-level behaviour. -/

/-- Reading the `u32` index buffer at position `k` (`indices[k]` in Rust).
In-range in every use the source makes of it; totalised with 0. -/
def idxAt (indices : List ℕ) (k : ℕ) : ℕ := indices.getD k 0

/-- The triangle triples of a flat index buffer: triangle `f` is
`(indices[3f], indices[3f+1], indices[3f+2])`, for `f < indices.len() / 3`,
exactly as enumerated by the loop in `edge_transformations`. -/
def triangleTriples (indices : List ℕ) : List (ℕ × ℕ × ℕ) :=
  (List.range (indices.length / 3)).map fun f =>
    (idxAt indices (3 * f), idxAt indices (3 * f + 1), idxAt indices (3 * f + 2))

/-- The ordered edge pairs of triangle `f` that pass the `first < second`
test, in visiting order `(i1,i2), (i2,i3), (i3,i1)`. -/
def perTriangleEmitted (indices : List ℕ) (f : ℕ) : List (ℕ × ℕ) :=
  let i1 := idxAt indices (3 * f)
  let i2 := idxAt indices (3 * f + 1)
  let i3 := idxAt indices (3 * f + 2)
  ([(i1, i2), (i2, i3), (i3, i1)]).filter fun p => p.1 < p.2

/-- All ordered edge pairs emitted by the deduplication rule of
`edge_transformations`, across all triangles, in emission order. -/
def emittedEdgePairs (indices : List ℕ) : List (ℕ × ℕ) :=
  (triangleTriples indices).flatMap fun t =>
    ([(t.1, t.2.1), (t.2.1, t.2.2), (t.2.2, t.1)]).filter fun p => p.1 < p.2

/-- Every ordered (directed) edge slot visited by the loop: three per
triangle, in winding order, with no `first < second` filtering. -/
def directedEdges (indices : List ℕ) : List (ℕ × ℕ) :=
  (triangleTriples indices).flatMap fun t =>
    [(t.1, t.2.1), (t.2.1, t.2.2), (t.2.2, t.1)]

/-- The distinct unordered index pairs that occur as an edge of at least
one triangle, represented canonically as `(min, max)`.  This is the
edge set the specification text counts. -/
def undirectedEdgeSet (indices : List ℕ) : Finset (ℕ × ℕ) :=
  ((directedEdges indices).map fun p => (min p.1 p.2, max p.1 p.2)).toFinset

/-! ### Geometry: vectors, quaternions and 4x4 matrices

Models of the cgmath types used by `edge_transform`.  `f32` scalars are
embedded as `ℝ`; the `ulps_eq` approximate comparisons inside
`Quaternion::from_arc` are idealised to exact real comparisons. -/

/-- Model of `three_d::Vec3` (cgmath `Vector3<f32>`) over `ℝ`. -/
structure Vec3 where
  x : ℝ
  y : ℝ
  z : ℝ

/-- Componentwise vector sum. -/
def Vec3.add (a b : Vec3) : Vec3 := ⟨a.x + b.x, a.y + b.y, a.z + b.z⟩

/-- Componentwise vector difference, as produced by `p2 - p1`. -/
def Vec3.sub (a b : Vec3) : Vec3 := ⟨a.x - b.x, a.y - b.y, a.z - b.z⟩

/-- Scalar multiple of a vector (cgmath `v * s`). -/
def Vec3.scale (v : Vec3) (s : ℝ) : Vec3 := ⟨v.x * s, v.y * s, v.z * s⟩

/-- Dot product. -/
def Vec3.dot (a b : Vec3) : ℝ := a.x * b.x + a.y * b.y + a.z * b.z

/-- Cross product, as in cgmath. -/
def Vec3.cross (a b : Vec3) : Vec3 :=
  ⟨a.y * b.z - a.z * b.y, a.z * b.x - a.x * b.z, a.x * b.y - a.y * b.x⟩

/-- cgmath `magnitude`: the square root of the dot square. -/
noncomputable def Vec3.magnitude (v : Vec3) : ℝ := Real.sqrt (v.dot v)

/-- cgmath `normalize`: `v * (1 / magnitude v)`. -/
noncomputable def Vec3.normalize (v : Vec3) : Vec3 := v.scale (1 / v.magnitude)

/-- Model of cgmath `Quaternion<f32>`: scalar part and vector part. -/
structure Quat where
  s : ℝ
  v : Vec3

/-- Quaternion magnitude (cgmath: square root of `s*s + |v|^2`). -/
noncomputable def Quat.magnitude (q : Quat) : ℝ := Real.sqrt (q.s * q.s + q.v.dot q.v)

/-- Scalar multiple of a quaternion. -/
def Quat.scale (q : Quat) (k : ℝ) : Quat := ⟨q.s * k, q.v.scale k⟩

/-- cgmath quaternion `normalize`. -/
noncomputable def Quat.normalize (q : Quat) : Quat := q.scale (1 / q.magnitude)

/-- cgmath `Quaternion::from_axis_angle`: half-angle scalar and scaled axis. -/
noncomputable def Quat.from_axis_angle (axis : Vec3) (angle : ℝ) : Quat :=
  ⟨Real.cos (angle / 2), axis.scale (Real.sin (angle / 2))⟩

open Classical in
/-- Model of cgmath `Rotation3::from_arc src dst fallback`, the shortest-arc
rotation taking `src` to `dst`: identity when the vectors already agree,
a half-turn about a perpendicular axis when they are opposite, and the
normalized quaternion `(|src||dst| + src.dot dst, src x dst)` otherwise.
The `ulps_eq` float comparisons are idealised as exact comparisons on `ℝ`. -/
noncomputable def Quat.from_arc (src dst : Vec3) (fallback : Option Vec3) : Quat :=
  let mag_avg := Real.sqrt (src.dot src * dst.dot dst)
  let d := src.dot dst
  if d = mag_avg then ⟨1, ⟨0, 0, 0⟩⟩
  else if d = -mag_avg then
    let axis :=
      match fallback with
      | some a => a
      | none =>
        let c := (Vec3.mk 1 0 0).cross src
        if c = ⟨0, 0, 0⟩ then ((Vec3.mk 0 1 0).cross src).normalize else c.normalize
    Quat.from_axis_angle axis Real.pi
  else Quat.normalize ⟨mag_avg + d, src.cross dst⟩

/-- Model of `three_d::Mat4` (cgmath `Matrix4<f32>`): sixteen real entries,
`mRC` being the entry in row `R`, column `C` of the linear map. -/
structure Mat4 where
  m00 : ℝ
  m01 : ℝ
  m02 : ℝ
  m03 : ℝ
  m10 : ℝ
  m11 : ℝ
  m12 : ℝ
  m13 : ℝ
  m20 : ℝ
  m21 : ℝ
  m22 : ℝ
  m23 : ℝ
  m30 : ℝ
  m31 : ℝ
  m32 : ℝ
  m33 : ℝ

/-- Row-by-column matrix product, as cgmath `Matrix4` multiplication. -/
def Mat4.mul (a b : Mat4) : Mat4 :=
  ⟨a.m00 * b.m00 + a.m01 * b.m10 + a.m02 * b.m20 + a.m03 * b.m30,
   a.m00 * b.m01 + a.m01 * b.m11 + a.m02 * b.m21 + a.m03 * b.m31,
   a.m00 * b.m02 + a.m01 * b.m12 + a.m02 * b.m22 + a.m03 * b.m32,
   a.m00 * b.m03 + a.m01 * b.m13 + a.m02 * b.m23 + a.m03 * b.m33,
   a.m10 * b.m00 + a.m11 * b.m10 + a.m12 * b.m20 + a.m13 * b.m30,
   a.m10 * b.m01 + a.m11 * b.m11 + a.m12 * b.m21 + a.m13 * b.m31,
   a.m10 * b.m02 + a.m11 * b.m12 + a.m12 * b.m22 + a.m13 * b.m32,
   a.m10 * b.m03 + a.m11 * b.m13 + a.m12 * b.m23 + a.m13 * b.m33,
   a.m20 * b.m00 + a.m21 * b.m10 + a.m22 * b.m20 + a.m23 * b.m30,
   a.m20 * b.m01 + a.m21 * b.m11 + a.m22 * b.m21 + a.m23 * b.m31,
   a.m20 * b.m02 + a.m21 * b.m12 + a.m22 * b.m22 + a.m23 * b.m32,
   a.m20 * b.m03 + a.m21 * b.m13 + a.m22 * b.m23 + a.m23 * b.m33,
   a.m30 * b.m00 + a.m31 * b.m10 + a.m32 * b.m20 + a.m33 * b.m30,
   a.m30 * b.m01 + a.m31 * b.m11 + a.m32 * b.m21 + a.m33 * b.m31,
   a.m30 * b.m02 + a.m31 * b.m12 + a.m32 * b.m22 + a.m33 * b.m32,
   a.m30 * b.m03 + a.m31 * b.m13 + a.m32 * b.m23 + a.m33 * b.m33⟩

instance : Mul Mat4 := ⟨Mat4.mul⟩

/-- cgmath `Matrix4::from_translation p`: identity with `p` in the last column. -/
def Mat4.from_translation (p : Vec3) : Mat4 :=
  ⟨1, 0, 0, p.x,
   0, 1, 0, p.y,
   0, 0, 1, p.z,
   0, 0, 0, 1⟩

/-- cgmath `Matrix4::from_nonuniform_scale sx sy sz`: diagonal scale. -/
def Mat4.from_nonuniform_scale (sx sy sz : ℝ) : Mat4 :=
  ⟨sx, 0, 0, 0,
   0, sy, 0, 0,
   0, 0, sz, 0,
   0, 0, 0, 1⟩

/-- cgmath `Matrix4::from(quat)`: the rotation matrix of a (unit)
quaternion embedded in the upper 3x3 block, identity elsewhere. -/
def Quat.toMat4 (q : Quat) : Mat4 :=
  let x2 := q.v.x + q.v.x
  let y2 := q.v.y + q.v.y
  let z2 := q.v.z + q.v.z
  let xx2 := x2 * q.v.x
  let xy2 := x2 * q.v.y
  let xz2 := x2 * q.v.z
  let yy2 := y2 * q.v.y
  let yz2 := y2 * q.v.z
  let zz2 := z2 * q.v.z
  let sy2 := y2 * q.s
  let sz2 := z2 * q.s
  let sx2 := x2 * q.s
  ⟨1 - yy2 - zz2, xy2 - sz2, xz2 + sy2, 0,
   xy2 + sz2, 1 - xx2 - zz2, yz2 - sx2, 0,
   xz2 - sy2, yz2 + sx2, 1 - xx2 - yy2, 0,
   0, 0, 0, 1⟩

/-- Homogeneous 4-component column vector over `ℝ`. -/
structure Vec4 where
  x : ℝ
  y : ℝ
  z : ℝ
  w : ℝ

/-- Matrix action on a homogeneous vector. -/
def Mat4.mulVec (m : Mat4) (v : Vec4) : Vec4 :=
  ⟨m.m00 * v.x + m.m01 * v.y + m.m02 * v.z + m.m03 * v.w,
   m.m10 * v.x + m.m11 * v.y + m.m12 * v.z + m.m13 * v.w,
   m.m20 * v.x + m.m21 * v.y + m.m22 * v.z + m.m23 * v.w,
   m.m30 * v.x + m.m31 * v.y + m.m32 * v.z + m.m33 * v.w⟩

/-- A 3D point as a homogeneous vector with `w = 1`. -/
def Vec3.toPoint (v : Vec3) : Vec4 := ⟨v.x, v.y, v.z, 1⟩

/-- The rotation action of a quaternion's matrix on a 3-vector: the upper
3x3 block of `Quat.toMat4` applied to `w`. -/
def applyQuat (q : Quat) (w : Vec3) : Vec3 :=
  let x2 := q.v.x + q.v.x
  let y2 := q.v.y + q.v.y
  let z2 := q.v.z + q.v.z
  let xx2 := x2 * q.v.x
  let xy2 := x2 * q.v.y
  let xz2 := x2 * q.v.z
  let yy2 := y2 * q.v.y
  let yz2 := y2 * q.v.z
  let zz2 := z2 * q.v.z
  let sy2 := y2 * q.s
  let sz2 := z2 * q.s
  let sx2 := x2 * q.s
  ⟨(1 - yy2 - zz2) * w.x + (xy2 - sz2) * w.y + (xz2 + sy2) * w.z,
   (xy2 + sz2) * w.x + (1 - xx2 - zz2) * w.y + (yz2 - sx2) * w.z,
   (xz2 - sy2) * w.x + (yz2 + sx2) * w.y + (1 - xx2 - yy2) * w.z⟩

/-! ### The Instance Builder (src/lib.rs lines 170-215) -/

/-- Model of `three_d::CpuMesh` restricted to the buffers the source
reads: the `f32` position buffer (`positions.to_f32()`), the index buffer
already converted to `u32` (`indices.to_u32().unwrap()`), and the
optional normals buffer. -/
structure CpuMesh where
  positions : List Vec3
  indices : List ℕ
  normals : Option (List Vec3)

/-- Model of `three_d::Srgba` (four 8-bit channels, embedded as `ℕ`). -/
structure Srgba where
  r : ℕ
  g : ℕ
  b : ℕ
  a : ℕ

/-- Model of `three_d::Instances`: the per-instance transform list, plus
the optional per-instance colors left at their `Default` (`None`). -/
structure Instances where
  transformations : List Mat4
  colors : Option (List Srgba)

/-- Reading the position buffer at index `i` (`positions[i]` in Rust).
In-range whenever the index buffer is valid; totalised with the origin. -/
def posAt (positions : List Vec3) (i : ℕ) : Vec3 := positions.getD i ⟨0, 0, 0⟩

/-- Model of `edge_transform` (src/lib.rs lines 195-203): translation to
`p1`, times the shortest-arc rotation from the unit X axis to the
normalized edge direction `p2 - p1`, times a nonuniform scale by the edge
length along X. -/
noncomputable def edge_transform (p1 p2 : Vec3) : Mat4 :=
  Mat4.from_translation p1 *
    (Quat.from_arc ⟨1, 0, 0⟩ ((p2.sub p1).normalize) none).toMat4 *
    Mat4.from_nonuniform_scale ((p1.sub p2).magnitude) 1 1

/-- One iteration of the triangle loop in `edge_transformations`: reads
the triangle's three indices and pushes the transform of each of the
three ordered edges whose first index is smaller than its second.
Out-of-range accesses (a precondition violation, a panic in Rust) are
totalised with `getD` defaults. -/
noncomputable def pushTriangleEdges (positions : List Vec3) (indices : List ℕ)
    (trs : List Mat4) (f : ℕ) : List Mat4 :=
  let i1 := idxAt indices (3 * f)
  let i2 := idxAt indices (3 * f + 1)
  let i3 := idxAt indices (3 * f + 2)
  let trs1 :=
    if i1 < i2 then
      trs ++ [edge_transform (posAt positions i1) (posAt positions i2)]
    else trs
  let trs2 :=
    if i2 < i3 then
      trs1 ++ [edge_transform (posAt positions i2) (posAt positions i3)]
    else trs1
  if i3 < i1 then
    trs2 ++ [edge_transform (posAt positions i3) (posAt positions i1)]
  else trs2

/-- Model of `edge_transformations` (src/lib.rs lines 170-193): fold the
per-triangle push over triangles `0 .. indices.len() / 3`, starting from
an empty transform vector; the remaining `Instances` fields stay at
their defaults. -/
noncomputable def edge_transformations (cpu_mesh : CpuMesh) : Instances :=
  { transformations :=
      (List.range (cpu_mesh.indices.length / 3)).foldl
        (pushTriangleEdges cpu_mesh.positions cpu_mesh.indices) []
    colors := none }

/-- The transform pushed for an emitted index pair: `edge_transform` on
the pair's two positions. -/
noncomputable def pairTransform (positions : List Vec3) (p : ℕ × ℕ) : Mat4 :=
  edge_transform (posAt positions p.1) (posAt positions p.2)

/-- Model of `vertex_transformations` (src/lib.rs lines 205-215): one
translation per mesh position. -/
noncomputable def vertex_transformations (cpu_mesh : CpuMesh) : Instances :=
  { transformations := cpu_mesh.positions.map Mat4.from_translation
    colors := none }

/-! ### ModelEntry (src/lib.rs lines 26-132) -/

/-- Model of `RenderMode` (src/lib.rs lines 26-30). -/
inductive RenderMode where
  | Normal
  | Wireframe
deriving DecidableEq

/-- Model of `three_d::PhysicalMaterial` restricted to the fields the
source sets or mutates: albedo colour, roughness, metallic, and whether
back-face culling is enabled in the render states. -/
structure PhysicalMaterial where
  albedo : Srgba
  roughness : ℝ
  metallic : ℝ
  cull_back : Bool

/-- Model of `new_phys_mat` (src/lib.rs lines 50-62): a physical material
with the supplied random opaque albedo (`rand` models the ambient
`get_rand_rgba()` draw, whose alpha channel the source discards),
roughness 1 and the remaining `CpuMaterial` defaults (metallic 0, no
culling). -/
def new_phys_mat (rand : Srgba) : PhysicalMaterial :=
  { albedo := ⟨rand.r, rand.g, rand.b, 255⟩
    roughness := 1
    metallic := 0
    cull_back := false }

/-- Model of a `Gm<Mesh, PhysicalMaterial>`: the mesh geometry it was
built from together with its material. -/
structure GmMesh where
  geometry : CpuMesh
  material : PhysicalMaterial

/-- Model of a `Gm<InstancedMesh, PhysicalMaterial>`: the instance set it
was built from together with its material.  The template geometry (the
engine-generated cylinder or sphere the instances are applied to) is
engine-internal and carries no claim-relevant state, so it is omitted. -/
structure GmInstanced where
  instances : Instances
  material : PhysicalMaterial

/-- Abstraction of `CpuMesh::compute_normals` (engine library code): it
fills the `normals` buffer, leaving positions and indices unchanged.
The numeric value of the computed normals is irrelevant to every claim,
so a canonical placeholder value is used per vertex. -/
def CpuMesh.compute_normals (m : CpuMesh) : CpuMesh :=
  { m with normals := some (m.positions.map fun _ => Vec3.mk 0 0 0) }

/-- Model of `ModelEntry` (src/lib.rs lines 64-70). -/
structure ModelEntry where
  cpu_mesh : CpuMesh
  normal_mesh : GmMesh
  wireframe_vertices : GmInstanced
  wireframe_edges : GmInstanced
  render_mode : RenderMode

/-- Model of `ModelEntry::new` (src/lib.rs lines 73-114): build the fixed
wireframe material (red-ish albedo, roughness 0.7, metallic 0.8,
back-face culling), derive the edge and vertex instance sets from the
incoming mesh, compute normals if absent, build the solid renderable
with a randomized material (`rand` models the `get_rand_rgba()` draw),
and start in `Normal` render mode.  The GPU context argument of the
source carries no modelled state and is dropped. -/
noncomputable def ModelEntry.new (rand : Srgba) (cpu_mesh : CpuMesh) : ModelEntry :=
  let wireframe_material : PhysicalMaterial :=
    { albedo := ⟨220, 50, 50, 255⟩
      roughness := 0.7
      metallic := 0.8
      cull_back := true }
  let wireframe_edges : GmInstanced :=
    { instances := edge_transformations cpu_mesh, material := wireframe_material }
  let wireframe_vertices : GmInstanced :=
    { instances := vertex_transformations cpu_mesh, material := wireframe_material }
  let cpu_mesh2 := if cpu_mesh.normals.isNone then cpu_mesh.compute_normals else cpu_mesh
  let model_material := new_phys_mat rand
  let normal_mesh : GmMesh := { geometry := cpu_mesh2, material := model_material }
  { cpu_mesh := cpu_mesh2
    normal_mesh := normal_mesh
    wireframe_vertices := wireframe_vertices
    wireframe_edges := wireframe_edges
    render_mode := RenderMode.Normal }

/-- The renderables a `ModelEntry` can hand to `target.render`. -/
inductive Renderable where
  | solid
  | wireframeEdges
  | wireframeVertices
deriving DecidableEq

/-- Model of `ModelEntry::render` (src/lib.rs lines 116-131) as its frame
effect: the ordered list of objects passed to `target.render`.  In
`Normal` mode the iterator holds only the solid mesh; in `Wireframe`
mode it is the solid mesh chained with the wireframe edges and then the
wireframe vertices (`chain` modelled as list append). -/
def ModelEntry.render (e : ModelEntry) : List Renderable :=
  match e.render_mode with
  | RenderMode.Normal => [Renderable.solid]
  | RenderMode.Wireframe =>
    [Renderable.solid] ++ [Renderable.wireframeEdges] ++ [Renderable.wireframeVertices]

/-! ### Post-construction mutations

The UI collaborator (src/gui/mod.rs, `AssetViewer`) mutates a selected
entry's solid-material fields through sliders, and external callers may
set the render-mode flag.  These are the only post-construction
mutations of a `ModelEntry` in the repository. -/

/-- One UI mutation of a `ModelEntry`: setting the render-mode flag or
one field of the solid material (the `AssetViewer` sliders). -/
inductive Mutation where
  | setRenderMode (m : RenderMode)
  | setMetallic (v : ℝ)
  | setRoughness (v : ℝ)
  | setAlbedoR (v : ℕ)
  | setAlbedoG (v : ℕ)
  | setAlbedoB (v : ℕ)
  | setAlbedoA (v : ℕ)

/-- Apply one mutation to an entry, leaving every other field unchanged,
exactly as the slider writes of `AssetViewer::show` and a render-mode
assignment do. -/
def applyMutation (mu : Mutation) (e : ModelEntry) : ModelEntry :=
  match mu with
  | Mutation.setRenderMode m => { e with render_mode := m }
  | Mutation.setMetallic v =>
    { e with normal_mesh :=
        { e.normal_mesh with material := { e.normal_mesh.material with metallic := v } } }
  | Mutation.setRoughness v =>
    { e with normal_mesh :=
        { e.normal_mesh with material := { e.normal_mesh.material with roughness := v } } }
  | Mutation.setAlbedoR v =>
    { e with normal_mesh :=
        { e.normal_mesh with material :=
            { e.normal_mesh.material with albedo :=
                { e.normal_mesh.material.albedo with r := v } } } }
  | Mutation.setAlbedoG v =>
    { e with normal_mesh :=
        { e.normal_mesh with material :=
            { e.normal_mesh.material with albedo :=
                { e.normal_mesh.material.albedo with g := v } } } }
  | Mutation.setAlbedoB v =>
    { e with normal_mesh :=
        { e.normal_mesh with material :=
            { e.normal_mesh.material with albedo :=
                { e.normal_mesh.material.albedo with b := v } } } }
  | Mutation.setAlbedoA v =>
    { e with normal_mesh :=
        { e.normal_mesh with material :=
            { e.normal_mesh.material with albedo :=
                { e.normal_mesh.material.albedo with a := v } } } }

/-! ### Asset loader (src/lib.rs lines 134-168)

The filesystem and the mesh deserializer are external collaborators; a
path is modelled by what the source observes of it: whether it is a
directory, the outcome of enumerating it, and each file's load/parse
outcome.  `three_d_asset::io::load(..).unwrap()` panics when the raw
load fails, so that case is modelled as the `none` of an outer `Option`
(a panic); a `deserialize` failure is an `Except.error` that Rust's `?`
propagates. -/

/-- What happens when one file is loaded and parsed: the raw asset load
fails (its `unwrap` panics), the deserialize step fails with a message,
or a mesh is produced. -/
inductive FileOutcome where
  | loadFail (msg : String)
  | parseFail (msg : String)
  | parsed (mesh : CpuMesh)

/-- Whether the outcome is a raw-load failure. -/
def FileOutcome.isLoadFail : FileOutcome → Bool
  | FileOutcome.loadFail _ => true
  | _ => false

/-- Whether the outcome is a deserialize failure. -/
def FileOutcome.isParseFail : FileOutcome → Bool
  | FileOutcome.parseFail _ => true
  | _ => false

/-- Model of a filesystem path as `load_models` observes it: either a
non-directory path with its file outcome, or a directory whose
enumeration either fails or yields a list of entries, each entry itself
either failing to be read or carrying a file outcome. -/
inductive PathModel where
  | file (f : FileOutcome)
  | dir (entries : Except String (List (Except String FileOutcome)))

/-- Model of `get_model` (src/lib.rs lines 134-138): panic (`none`) when
the raw load fails, propagate a deserialize error, otherwise build a
`ModelEntry` (with `rand` modelling the material's rng draw). -/
noncomputable def get_model (rand : Srgba) (f : FileOutcome) :
    Option (Except String ModelEntry) :=
  match f with
  | FileOutcome.loadFail _ => none
  | FileOutcome.parseFail msg => some (Except.error msg)
  | FileOutcome.parsed mesh => some (Except.ok (ModelEntry.new rand mesh))

/-- The directory loop of `load_models` (src/lib.rs lines 149-163): for
each entry, `entry?` returns an entry-read error to the caller; a
successful `get_model` pushes its model onto the accumulated vector; a
`get_model` error is printed and skipped; a `get_model` panic aborts.
The `std::thread::scope` wrapper in the source ignores its scope handle
and spawns nothing, so the body runs sequentially.  `k` counts the
entries constructed so far and indexes the rng stream `rands`. -/
noncomputable def loadDirLoop (rands : ℕ → Srgba) :
    ℕ → List ModelEntry → List (Except String FileOutcome) →
    Option (Except String (List ModelEntry))
  | _, acc, [] => some (Except.ok acc)
  | _, _, Except.error msg :: _ => some (Except.error msg)
  | k, acc, Except.ok f :: rest =>
    match get_model (rands k) f with
    | none => none
    | some (Except.ok model) => loadDirLoop rands (k + 1) (acc ++ [model]) rest
    | some (Except.error _) => loadDirLoop rands k acc rest

/-- Model of `load_models` (src/lib.rs lines 140-168).  A non-directory
path is loaded and deserialized inline: a raw-load failure panics, a
deserialize failure is propagated by `?`, and success yields a singleton
vector.  For a directory, `fs::read_dir(path).unwrap()` panics when
enumeration fails; otherwise the entry loop runs.  `rands` models the
ambient rng, one draw per constructed entry. -/
noncomputable def load_models (rands : ℕ → Srgba) (path : PathModel) :
    Option (Except String (List ModelEntry)) :=
  match path with
  | PathModel.file (FileOutcome.loadFail _) => none
  | PathModel.file (FileOutcome.parseFail msg) => some (Except.error msg)
  | PathModel.file (FileOutcome.parsed mesh) =>
    some (Except.ok [ModelEntry.new (rands 0) mesh])
  | PathModel.dir (Except.error _) => none
  | PathModel.dir (Except.ok entries) => loadDirLoop rands 0 [] entries

/-- The models a directory load constructs when no entry panics: one
`ModelEntry` per successfully parsed file, in enumeration order, with
the rng stream indexed by construction count. -/
noncomputable def successfulModels (rands : ℕ → Srgba) :
    ℕ → List FileOutcome → List ModelEntry
  | _, [] => []
  | k, FileOutcome.parsed mesh :: rest =>
    ModelEntry.new (rands k) mesh :: successfulModels rands (k + 1) rest
  | k, FileOutcome.parseFail _ :: rest => successfulModels rands k rest
  | k, FileOutcome.loadFail _ :: rest => successfulModels rands k rest

/-! ### Concrete meshes used by the testable properties -/

/-- The single-triangle mesh of the specification's first worked example:
positions `(0,0,0), (1,0,0), (0,1,0)` indexed `(0,1,2)`. -/
noncomputable def triMesh : CpuMesh :=
  { positions := [⟨0, 0, 0⟩, ⟨1, 0, 0⟩, ⟨0, 1, 0⟩]
    indices := [0, 1, 2]
    normals := none }

/-- The eight corner positions of the unit cube. -/
noncomputable def cubePositions : List Vec3 :=
  [⟨0, 0, 0⟩, ⟨1, 0, 0⟩, ⟨1, 1, 0⟩, ⟨0, 1, 0⟩,
   ⟨0, 0, 1⟩, ⟨1, 0, 1⟩, ⟨1, 1, 1⟩, ⟨0, 1, 1⟩]

/-- A cube as 12 consistently wound triangles over the 8 shared corner
vertices (each face split into two triangles, outward-facing winding). -/
def cubeIndices : List ℕ :=
  [4, 5, 6, 4, 6, 7,
   1, 0, 3, 1, 3, 2,
   0, 4, 7, 0, 7, 3,
   5, 1, 2, 5, 2, 6,
   3, 7, 6, 3, 6, 2,
   0, 1, 5, 0, 5, 4]

/-- The cube mesh: 12 triangles over 8 shared vertices. -/
noncomputable def cubeMesh : CpuMesh :=
  { positions := cubePositions
    indices := cubeIndices
    normals := none }

/-! ### Refinement lemmas: the transform loop versus its index-level description -/

/-- One loop iteration pushes exactly the transforms of that triangle's
emitted pairs, in visiting order. -/
lemma pushTriangleEdges_eq (positions : List Vec3) (indices : List ℕ)
    (trs : List Mat4) (f : ℕ) :
    pushTriangleEdges positions indices trs f
      = trs ++ (perTriangleEmitted indices f).map (pairTransform positions) := by
  unfold pushTriangleEdges perTriangleEmitted
  by_cases h1 : idxAt indices (3 * f) < idxAt indices (3 * f + 1) <;>
    by_cases h2 : idxAt indices (3 * f + 1) < idxAt indices (3 * f + 2) <;>
      by_cases h3 : idxAt indices (3 * f + 2) < idxAt indices (3 * f) <;>
        simp [h1, h2, h3, pairTransform]

/-- Folding the per-triangle push over any triangle list appends the
mapped transforms of all emitted pairs. -/
lemma foldl_pushTriangleEdges (positions : List Vec3) (indices : List ℕ) :
    ∀ (l : List ℕ) (acc : List Mat4),
      l.foldl (pushTriangleEdges positions indices) acc
        = acc ++ (l.flatMap (perTriangleEmitted indices)).map (pairTransform positions) := by
  intro l
  induction l with
  | nil => intro acc; simp
  | cons f rest ih =>
    intro acc
    rw [List.foldl_cons, pushTriangleEdges_eq, ih]
    simp [List.append_assoc]

/-- The emitted pair list equals the triangle-range flat map of the
per-triangle emissions. -/
lemma emittedEdgePairs_eq_range (indices : List ℕ) :
    emittedEdgePairs indices
      = (List.range (indices.length / 3)).flatMap (perTriangleEmitted indices) := by
  unfold emittedEdgePairs triangleTriples
  rw [List.flatMap_map]
  rfl

/-- The transform list built by `edge_transformations` is exactly the
emitted pair list mapped through `edge_transform` on the pair's
positions. -/
lemma edge_transformations_spec (m : CpuMesh) :
    (edge_transformations m).transformations
      = (emittedEdgePairs m.indices).map (pairTransform m.positions) := by
  unfold edge_transformations
  rw [foldl_pushTriangleEdges, emittedEdgePairs_eq_range]
  rfl

/-- Edge instance count: one per emitted pair. -/
lemma edge_transformations_length (m : CpuMesh) :
    (edge_transformations m).transformations.length
      = (emittedEdgePairs m.indices).length := by
  rw [edge_transformations_spec, List.length_map]

/-- Vertex instance count: one per mesh position. -/
lemma vertex_transformations_length (m : CpuMesh) :
    (vertex_transformations m).transformations.length = m.positions.length := by
  simp [vertex_transformations]

/-- The emitted pairs are the directed edge slots filtered by the
`first < second` rule. -/
lemma emittedEdgePairs_eq_filter (indices : List ℕ) :
    emittedEdgePairs indices
      = (directedEdges indices).filter fun p => p.1 < p.2 := by
  unfold emittedEdgePairs directedEdges
  generalize triangleTriples indices = l
  induction l with
  | nil => rfl
  | cons t rest ih =>
    obtain ⟨a, b, c⟩ := t
    simp only [List.flatMap_cons, List.filter_append, ih]

/-! ### Claim theorems: the Instance Builder -/

/-- C2: for every mesh, the transform list of `edge_transformations` is
exactly the list of visited ordered pairs `(i1,i2), (i2,i3), (i3,i1)` of
each triangle in winding order, filtered by `first index < second index`
and mapped through `edge_transform` on their positions: an edge instance
is emitted for a pair if and only if the pair passes that inequality. -/
theorem c2_visit_order_and_emission_rule (m : CpuMesh) :
    (edge_transformations m).transformations
      = (emittedEdgePairs m.indices).map (pairTransform m.positions) :=
  edge_transformations_spec m

/-- C1 counterexample: for the boundary-only single-triangle mesh with
index buffer `(0,1,2)`, three distinct unordered index pairs occur as
edges but only two edge instances are emitted — the boundary edge
`{2,0}`, visited only as the descending pair `(2,0)`, is missing.  The
claim that the instance count always equals the distinct unordered pair
count is therefore false. -/
theorem c1_counterexample :
    (edge_transformations triMesh).transformations.length = 2 ∧
    (undirectedEdgeSet triMesh.indices).card = 3 ∧
    (edge_transformations triMesh).transformations.length
      ≠ (undirectedEdgeSet triMesh.indices).card := by
  refine ⟨?_, by decide, ?_⟩
  · rw [edge_transformations_length]; decide
  · rw [edge_transformations_length]; decide

/-- C1 amended: when no ordered (directed) edge slot repeats — true of
consistently wound manifold and boundary-only meshes — the emitted pair
list has no duplicates, a pair is emitted exactly when it occurs in some
triangle in ascending order, and the number of edge instances equals the
number of distinct unordered pairs that occur in ascending order
somewhere.  Internal edges (visited once per orientation) are instanced
exactly once; a boundary edge is instanced precisely when its single
visit is ascending. -/
theorem c1_edge_dedup_amended (m : CpuMesh)
    (h : (directedEdges m.indices).Nodup) :
    (edge_transformations m).transformations.length
      = ((directedEdges m.indices).filter fun p => p.1 < p.2).toFinset.card
    ∧ (emittedEdgePairs m.indices).Nodup
    ∧ ∀ a b : ℕ, (a, b) ∈ emittedEdgePairs m.indices ↔
        ((a, b) ∈ directedEdges m.indices ∧ a < b) := by
  have hfilter := emittedEdgePairs_eq_filter m.indices
  have hnd : ((directedEdges m.indices).filter fun p => p.1 < p.2).Nodup :=
    h.filter _
  refine ⟨?_, by rw [hfilter]; exact hnd, ?_⟩
  · rw [edge_transformations_length, hfilter,
      List.toFinset_card_of_nodup hnd]
  · intro a b
    rw [hfilter, List.mem_filter]
    simp

/-- Witness for C1 (amended) at the single-triangle mesh. -/
theorem c1_edge_dedup_amended_witness :
    (directedEdges triMesh.indices).Nodup ∧
    ((edge_transformations triMesh).transformations.length
        = ((directedEdges triMesh.indices).filter fun p => p.1 < p.2).toFinset.card
      ∧ (emittedEdgePairs triMesh.indices).Nodup
      ∧ ∀ a b : ℕ, (a, b) ∈ emittedEdgePairs triMesh.indices ↔
          ((a, b) ∈ directedEdges triMesh.indices ∧ a < b)) :=
  ⟨by decide, c1_edge_dedup_amended triMesh (by decide)⟩

/-- C4 counterexample: the single triangle with positions
`(0,0,0), (1,0,0), (0,1,0)` indexed `(0,1,2)` yields two edge instances,
not the three the claim states: the edge visited as `(2,0)` fails the
`first < second` rule. -/
theorem c4_counterexample :
    (edge_transformations triMesh).transformations.length ≠ 3 := by
  rw [edge_transformations_length]; decide

/-- C4 amended: the single-triangle mesh `(0,1,2)` produces exactly 2
edge instances (for the pairs `(0,1)` and `(1,2)`; the pair `(2,0)` is
skipped) and exactly 3 vertex instances, one per input position. -/
theorem c4_single_triangle_amended :
    (edge_transformations triMesh).transformations.length = 2 ∧
    (vertex_transformations triMesh).transformations.length = 3 := by
  refine ⟨?_, ?_⟩
  · rw [edge_transformations_length]; decide
  · rw [vertex_transformations_length]; rfl

/-- C5 counterexample: the cube of 12 consistently wound triangles over 8
shared vertices yields 18 edge instances (the 12 cube edges plus the 6
face diagonals of the triangulation), not the 12 the claim states. -/
theorem c5_counterexample :
    (edge_transformations cubeMesh).transformations.length ≠ 12 := by
  rw [edge_transformations_length]; decide

/-- C5 amended: the cube mesh of 12 triangles over 8 shared vertices
produces exactly 18 edge instances (one per distinct unordered edge of
the triangulation, not 36) and exactly 8 vertex instances. -/
theorem c5_cube_amended :
    (edge_transformations cubeMesh).transformations.length = 18 ∧
    (edge_transformations cubeMesh).transformations.length
      = (undirectedEdgeSet cubeMesh.indices).card ∧
    (vertex_transformations cubeMesh).transformations.length = 8 := by
  refine ⟨?_, ?_, ?_⟩
  · rw [edge_transformations_length]; decide
  · rw [edge_transformations_length]; decide
  · rw [vertex_transformations_length]; rfl

/-! ### Matrix action lemmas for the edge transform -/

/-- Multiplication of `Mat4` unfolds to `Mat4.mul`. -/
lemma Mat4.mul_def (a b : Mat4) : a * b = Mat4.mul a b := rfl

/-- Matrix product acts as composition of actions. -/
lemma Mat4.mul_mulVec (a b : Mat4) (v : Vec4) :
    (a * b).mulVec v = a.mulVec (b.mulVec v) := by
  rw [Mat4.mul_def]
  cases a; cases b; cases v
  simp only [Mat4.mul, Mat4.mulVec, Vec4.mk.injEq]
  refine ⟨by ring, by ring, by ring, by ring⟩

/-- The nonuniform scale matrix scales each coordinate of a point. -/
lemma from_nonuniform_scale_action (sx sy sz : ℝ) (v : Vec3) :
    (Mat4.from_nonuniform_scale sx sy sz).mulVec v.toPoint
      = Vec3.toPoint ⟨sx * v.x, sy * v.y, sz * v.z⟩ := by
  cases v
  simp only [Mat4.from_nonuniform_scale, Mat4.mulVec, Vec3.toPoint, Vec4.mk.injEq]
  refine ⟨by ring, by ring, by ring, by ring⟩

/-- The quaternion matrix acts on a point as the rotation action
`applyQuat` of its upper 3x3 block. -/
lemma toMat4_action (q : Quat) (w : Vec3) :
    q.toMat4.mulVec w.toPoint = (applyQuat q w).toPoint := by
  cases w
  simp only [Quat.toMat4, applyQuat, Mat4.mulVec, Vec3.toPoint, Vec4.mk.injEq]
  refine ⟨by ring, by ring, by ring, by ring⟩

/-- The translation matrix adds its translation to a point. -/
lemma from_translation_action (p w : Vec3) :
    (Mat4.from_translation p).mulVec w.toPoint = (p.add w).toPoint := by
  cases p; cases w
  simp only [Mat4.from_translation, Mat4.mulVec, Vec3.add, Vec3.toPoint, Vec4.mk.injEq]
  refine ⟨by ring, by ring, by ring, by ring⟩

/-- The square root of four. -/
lemma sqrt_four : Real.sqrt 4 = 2 := by
  rw [show (4 : ℝ) = 2 ^ 2 by norm_num, Real.sqrt_sq (by norm_num : (0 : ℝ) ≤ 2)]

/-- The normalized direction of the example edge from the origin to
`(2,0,0)` is the unit X axis. -/
lemma normalize_example_direction :
    ((Vec3.mk 2 0 0).sub ⟨0, 0, 0⟩).normalize = ⟨1, 0, 0⟩ := by
  have hsub : (Vec3.mk 2 0 0).sub ⟨0, 0, 0⟩ = ⟨2, 0, 0⟩ := by
    simp [Vec3.sub]
  have hmag : (Vec3.mk 2 0 0).magnitude = 2 := by
    rw [Vec3.magnitude, show (Vec3.mk 2 0 0).dot ⟨2, 0, 0⟩ = 4 by norm_num [Vec3.dot]]
    exact sqrt_four
  rw [hsub, Vec3.normalize, hmag]
  norm_num [Vec3.scale]

/-- The length of the example edge. -/
lemma magnitude_example_edge :
    ((Vec3.mk 0 0 0).sub ⟨2, 0, 0⟩).magnitude = 2 := by
  have hsub : (Vec3.mk 0 0 0).sub ⟨2, 0, 0⟩ = ⟨-2, 0, 0⟩ := by
    simp [Vec3.sub]
  rw [hsub, Vec3.magnitude, show (Vec3.mk (-2) 0 0).dot ⟨-2, 0, 0⟩ = 4 by norm_num [Vec3.dot]]
  exact sqrt_four

/-- `from_arc` of the unit X axis with itself takes the aligned branch
and is the identity quaternion. -/
lemma from_arc_unitX_self :
    Quat.from_arc ⟨1, 0, 0⟩ ⟨1, 0, 0⟩ none = ⟨1, ⟨0, 0, 0⟩⟩ := by
  have hd : (Vec3.mk 1 0 0).dot ⟨1, 0, 0⟩ = 1 := by norm_num [Vec3.dot]
  rw [Quat.from_arc]
  rw [show (Vec3.mk 1 0 0).dot ⟨1, 0, 0⟩ * (Vec3.mk 1 0 0).dot ⟨1, 0, 0⟩ = 1 by
    rw [hd]; norm_num]
  rw [Real.sqrt_one, hd]
  simp

/-- The worked example: the edge from the origin to `(2,0,0)` has the
pure nonuniform scale `(2,1,1)` as its transform (identity rotation,
zero translation). -/
lemma edge_transform_example :
    edge_transform ⟨0, 0, 0⟩ ⟨2, 0, 0⟩ = Mat4.from_nonuniform_scale 2 1 1 := by
  rw [edge_transform, normalize_example_direction, from_arc_unitX_self,
    magnitude_example_edge]
  rw [Mat4.mul_def, Mat4.mul_def]
  simp only [Mat4.from_translation, Quat.toMat4, Mat4.from_nonuniform_scale,
    Mat4.mul, Mat4.mk.injEq]
  norm_num

/-- C6: for all endpoints, the edge instance transform acts on a local
point `v` by first applying the nonuniform scale `(|p1-p2|, 1, 1)` in
local space, then the shortest-arc rotation from the unit X axis to the
normalized direction `p2 - p1`, then the translation to `p1`; and for
the worked example `p1 = (0,0,0)`, `p2 = (2,0,0)` the transform is
exactly the pure scale `(2,1,1)` (identity rotation, zero translation),
stretching the template's unit-length local X axis to double length. -/
theorem c6_edge_transform_composition :
    (∀ p1 p2 v : Vec3,
        (edge_transform p1 p2).mulVec v.toPoint
          = (p1.add (applyQuat
              (Quat.from_arc ⟨1, 0, 0⟩ ((p2.sub p1).normalize) none)
              ⟨(p1.sub p2).magnitude * v.x, v.y, v.z⟩)).toPoint)
    ∧ edge_transform ⟨0, 0, 0⟩ ⟨2, 0, 0⟩ = Mat4.from_nonuniform_scale 2 1 1
    ∧ (edge_transform ⟨0, 0, 0⟩ ⟨2, 0, 0⟩).mulVec (Vec3.toPoint ⟨1, 0, 0⟩)
        = Vec3.toPoint ⟨2, 0, 0⟩ := by
  refine ⟨?_, edge_transform_example, ?_⟩
  · intro p1 p2 v
    rw [edge_transform, Mat4.mul_mulVec, Mat4.mul_mulVec,
      from_nonuniform_scale_action, toMat4_action, from_translation_action,
      one_mul, one_mul]
  · rw [edge_transform_example, from_nonuniform_scale_action]
    norm_num

/-! ### Claim theorems: ModelEntry lifecycle and render modes -/

/-- Each single mutation leaves both wireframe renderables untouched. -/
lemma applyMutation_preserves_wireframes (mu : Mutation) (e : ModelEntry) :
    (applyMutation mu e).wireframe_edges = e.wireframe_edges ∧
    (applyMutation mu e).wireframe_vertices = e.wireframe_vertices := by
  cases mu <;> simp [applyMutation]

/-- Any mutation sequence leaves both wireframe renderables untouched. -/
lemma foldl_applyMutation_preserves (ms : List Mutation) :
    ∀ e : ModelEntry,
      (ms.foldl (fun a mu => applyMutation mu a) e).wireframe_edges
          = e.wireframe_edges ∧
      (ms.foldl (fun a mu => applyMutation mu a) e).wireframe_vertices
          = e.wireframe_vertices := by
  induction ms with
  | nil => intro e; exact ⟨rfl, rfl⟩
  | cons mu rest ih =>
    intro e
    have h := applyMutation_preserves_wireframes mu e
    simp only [List.foldl_cons]
    exact ⟨(ih _).1.trans h.1, (ih _).2.trans h.2⟩

/-- C9: the wireframe renderables are derived exactly once, at
construction: after any sequence of render-mode or solid-material
mutations, the edge and vertex instance sets are still exactly the
instance sets `edge_transformations` and `vertex_transformations`
computed from the construction mesh. -/
theorem c9_wireframes_never_rederived (ms : List Mutation) (rand : Srgba)
    (mesh : CpuMesh) :
    (ms.foldl (fun a mu => applyMutation mu a)
        (ModelEntry.new rand mesh)).wireframe_edges.instances
        = edge_transformations mesh
    ∧ (ms.foldl (fun a mu => applyMutation mu a)
        (ModelEntry.new rand mesh)).wireframe_vertices.instances
        = vertex_transformations mesh := by
  have h := foldl_applyMutation_preserves ms (ModelEntry.new rand mesh)
  exact ⟨by rw [h.1]; rfl, by rw [h.2]; rfl⟩

/-- C8: `Normal` mode draws exactly the solid renderable, `Wireframe`
mode draws the solid renderable, then the wireframe edges, then the
wireframe vertices, and no render mode other than these two exists. -/
theorem c8_render_mode_draw_lists :
    (∀ e : ModelEntry,
        e.render = (match e.render_mode with
          | RenderMode.Normal => [Renderable.solid]
          | RenderMode.Wireframe =>
            [Renderable.solid, Renderable.wireframeEdges,
              Renderable.wireframeVertices]))
    ∧ ∀ mo : RenderMode, mo = RenderMode.Normal ∨ mo = RenderMode.Wireframe := by
  constructor
  · intro e
    cases h : e.render_mode <;> simp [ModelEntry.render, h]
  · intro mo
    cases mo
    · exact Or.inl rfl
    · exact Or.inr rfl

/-- C10: a freshly constructed `ModelEntry` is in `Normal` render mode,
so it draws only its solid renderable until a caller changes the mode. -/
theorem c10_new_entry_renders_solid_only (rand : Srgba) (mesh : CpuMesh) :
    (ModelEntry.new rand mesh).render_mode = RenderMode.Normal
    ∧ (ModelEntry.new rand mesh).render = [Renderable.solid] :=
  ⟨rfl, rfl⟩

/-! ### Claim theorems: the asset loader -/

/-- C7: for a non-directory path, a deserialize failure is returned to
the caller as an error (propagated, not swallowed), and a successful
parse yields a singleton sequence with the one constructed entry. -/
theorem c7_single_file_load (rands : ℕ → Srgba) :
    (∀ msg : String,
        load_models rands (PathModel.file (FileOutcome.parseFail msg))
          = some (Except.error msg))
    ∧ ∀ mesh : CpuMesh,
        load_models rands (PathModel.file (FileOutcome.parsed mesh))
          = some (Except.ok [ModelEntry.new (rands 0) mesh]) :=
  ⟨fun _ => rfl, fun _ => rfl⟩

/-- When no entry fails at the raw-load stage, the directory loop
returns the accumulated list extended with one entry per parsed file. -/
lemma loadDirLoop_no_loadFail (rands : ℕ → Srgba) :
    ∀ (entries : List FileOutcome) (k : ℕ) (acc : List ModelEntry),
      (∀ f ∈ entries, f.isLoadFail = false) →
      loadDirLoop rands k acc (entries.map Except.ok)
        = some (Except.ok (acc ++ successfulModels rands k entries)) := by
  intro entries
  induction entries with
  | nil =>
    intro k acc _
    simp [loadDirLoop, successfulModels]
  | cons f rest ih =>
    intro k acc h
    have hf := h f (List.mem_cons_self f rest)
    have hrest : ∀ g ∈ rest, g.isLoadFail = false :=
      fun g hg => h g (List.mem_cons_of_mem f hg)
    cases f with
    | loadFail msg => simp [FileOutcome.isLoadFail] at hf
    | parseFail msg =>
      simp only [List.map_cons, loadDirLoop, get_model]
      rw [ih k acc hrest]
      simp [successfulModels]
    | parsed mesh =>
      simp only [List.map_cons, loadDirLoop, get_model]
      rw [ih (k + 1) (acc ++ [ModelEntry.new (rands k) mesh]) hrest]
      simp [successfulModels]

/-- With no raw-load failures, the constructed entries number exactly the
total entries minus the parse failures. -/
lemma successfulModels_length (rands : ℕ → Srgba) :
    ∀ (entries : List FileOutcome) (k : ℕ),
      (∀ f ∈ entries, f.isLoadFail = false) →
      (successfulModels rands k entries).length
        = entries.length - entries.countP (fun f => f.isParseFail) := by
  intro entries
  induction entries with
  | nil => intro k _; simp [successfulModels]
  | cons f rest ih =>
    intro k h
    have hf := h f (List.mem_cons_self f rest)
    have hrest : ∀ g ∈ rest, g.isLoadFail = false :=
      fun g hg => h g (List.mem_cons_of_mem f hg)
    have hle : rest.countP (fun f => f.isParseFail) ≤ rest.length :=
      List.countP_le_length _
    cases f with
    | loadFail msg => simp [FileOutcome.isLoadFail] at hf
    | parseFail msg =>
      simp only [successfulModels, List.countP_cons, List.length_cons]
      rw [ih k hrest]
      simp [FileOutcome.isParseFail, Nat.succ_sub_succ]
    | parsed mesh =>
      have hp : (FileOutcome.parsed mesh).isParseFail = false := rfl
      simp only [successfulModels, List.countP_cons, List.length_cons, hp]
      rw [ih (k + 1) hrest]
      simp only [Bool.false_eq_true, if_false, Nat.add_zero]
      omega

/-- C3 counterexample: a directory whose enumeration succeeds with one
entry that fails at the raw asset-load stage does not return `Ok` with
zero entries; the `unwrap` of the failed load panics and aborts the
whole call (modelled as `none`), so the per-file failure is not
isolated. -/
theorem c3_counterexample :
    load_models (fun _ => Srgba.mk 0 0 0 0)
        (PathModel.dir (Except.ok [Except.ok (FileOutcome.loadFail "io")]))
        = none
    ∧ ∀ models : List ModelEntry,
        load_models (fun _ => Srgba.mk 0 0 0 0)
            (PathModel.dir (Except.ok [Except.ok (FileOutcome.loadFail "io")]))
          ≠ some (Except.ok models) := by
  refine ⟨rfl, ?_⟩
  intro models h
  simp [load_models, loadDirLoop, get_model] at h

/-- C3 amended: for a directory whose enumeration succeeds with `N`
entries, of which `K` fail at the deserialize (parse) stage and none
fail at the raw asset-load stage, `load_models` returns `Ok` with
exactly `N - K` Model Entries — each parse failure is isolated (logged
and skipped) and never fails the aggregate call.  A raw-load failure,
by contrast, panics the whole call (see the counterexample), as does a
directory-enumeration failure. -/
theorem c3_directory_isolation_amended (rands : ℕ → Srgba)
    (entries : List FileOutcome)
    (h : ∀ f ∈ entries, f.isLoadFail = false) :
    load_models rands (PathModel.dir (Except.ok (entries.map Except.ok)))
        = some (Except.ok (successfulModels rands 0 entries))
    ∧ (successfulModels rands 0 entries).length
        = entries.length - entries.countP (fun f => f.isParseFail) := by
  constructor
  · show loadDirLoop rands 0 [] (entries.map Except.ok) = _
    rw [loadDirLoop_no_loadFail rands entries 0 [] h]
    simp
  · exact successfulModels_length rands entries 0 h

/-- Witness for C3 (amended) at a one-entry directory whose single file
fails to parse: the call succeeds with an empty model list. -/
theorem c3_directory_isolation_amended_witness :
    (∀ f ∈ [FileOutcome.parseFail "bad"], f.isLoadFail = false) ∧
    (load_models (fun _ => Srgba.mk 0 0 0 0)
        (PathModel.dir (Except.ok ([FileOutcome.parseFail "bad"].map Except.ok)))
        = some (Except.ok
            (successfulModels (fun _ => Srgba.mk 0 0 0 0) 0
              [FileOutcome.parseFail "bad"]))
      ∧ (successfulModels (fun _ => Srgba.mk 0 0 0 0) 0
            [FileOutcome.parseFail "bad"]).length
          = [FileOutcome.parseFail "bad"].length
              - [FileOutcome.parseFail "bad"].countP (fun f => f.isParseFail)) :=
  ⟨by simp [FileOutcome.isLoadFail],
    c3_directory_isolation_amended (fun _ => Srgba.mk 0 0 0 0)
      [FileOutcome.parseFail "bad"] (by simp [FileOutcome.isLoadFail])⟩
